import Mathlib

/-!
# check_docker_swarm: a shallow embedding of the monitoring plugin

The Go program `src/check_docker_swarm.go` is embedded as functions over an explicit
process state.  A process step either keeps running or has terminated through
`os.Exit`; once it has terminated nothing after it is executed.

Conventions of the embedding

* Go strings are Lean strings (sequences of Unicode characters, i.e. valid UTF-8).
* Go `int` is `Int`; Go `uint64` is `Nat` (only compared, never computed with).
* Standard output is the list of writes issued, oldest first; standard error is not tracked.
* Every query sent to the Docker API is logged in `World.requests`.
* `fmt.Sprintf` with matching operands (`%d` with an integer, `%s` with a string) is
  decimal rendering and verbatim insertion, written as string concatenation.
* `fmt.Printf` called with a format and no operand runs the formatter of the Go
  standard library over the format; `doPrintf` below follows `(*pp).doPrintf` of
  package `fmt` for an empty operand list.
-/

namespace CheckDockerSwarm

/-! ## Process model -/

/-- A query sent to the Docker API. -/
inductive Request where
  | nodeList
  | serviceList (name : String)
deriving DecidableEq, Repr

/-- Observable effects of the process so far. -/
structure World where
  /-- Writes to standard output, oldest first. -/
  stdout : List String
  /-- Queries sent to the Docker API, oldest first. -/
  requests : List Request
deriving DecidableEq, Repr

/-- Result of running a piece of the program from some world. -/
inductive Outcome (α : Type) where
  /-- The process has terminated with `os.Exit code`. -/
  | exited (w : World) (code : Int)
  /-- Control continues with value `a`. -/
  | running (w : World) (a : α)
deriving DecidableEq, Repr

/-- A piece of the program: a world transformer that may terminate the process. -/
def Proc (α : Type) : Type := World → Outcome α

/-- Sequencing: nothing runs after the process has exited. -/
def Proc.bind {α β : Type} (m : Proc α) (f : α → Proc β) : Proc β :=
  fun w =>
    match m w with
    | .exited w1 code => .exited w1 code
    | .running w1 a => f a w1

/-- Continue with a value, no effect. -/
def Proc.pure {α : Type} (a : α) : Proc α := fun w => .running w a

instance : Monad Proc where
  pure := Proc.pure
  bind := Proc.bind

/-- Terminate the process: `os.Exit(code)`. -/
def osExit {α : Type} (code : Int) : Proc α := fun w => .exited w code

/-- One write to standard output. -/
def writeStdout (s : String) : Proc Unit :=
  fun w => .running { w with stdout := w.stdout ++ [s] } ()

/-- Log a query sent to the Docker API. -/
def sendRequest (r : Request) : Proc Unit :=
  fun w => .running { w with requests := w.requests ++ [r] } ()

/-! ## `fmt.Printf` with no operands -/

/-- Flag characters accepted after `%`. -/
def isFlagChar (c : Char) : Bool :=
  c == '#' || c == '0' || c == '+' || c == '-' || c == ' '

/-- Follows `parsenum` of package `fmt` on the characters up to its `end`: returns whether a
number was read and the characters left.  When the number read so far exceeds `1e6`
(`tooLarge`) the scan gives up and jumps to `end`. -/
def parsenum : Nat → Bool → List Char → Bool × List Char
  | _, isnum, [] => (isnum, [])
  | num, isnum, c :: cs =>
    if c.isDigit then
      if num > 1000000 then (false, [])
      else parsenum (num * 10 + (c.toNat - '0'.toNat)) true cs
    else (isnum, c :: cs)

/-- Follows `parseArgNumber` of package `fmt` on a format that starts with `[`: returns the
number of characters to skip and whether a well-formed `[n]` was read.  (The length test
counts bytes in Go; a format starting with `[` has fewer than three bytes exactly when it
has fewer than three characters or holds no `]`, and both cases give the same result.) -/
def parseArgNumber (f : List Char) : Nat × Bool :=
  if f.length < 3 then (1, false)
  else
    let inner := f.tail.takeWhile (fun c => c != ']')
    if inner.length < f.tail.length then
      let r := parsenum 0 false inner
      (inner.length + 2, r.1 && r.2.isEmpty)
    else (1, false)

/-- Follows `(*pp).argNumber` of package `fmt` when there is no operand: any `[` makes the
argument number bad.  Returns the new `goodArgNum`, the characters left, and `found`. -/
def argNumber (goodArgNum : Bool) (f : List Char) : Bool × List Char × Bool :=
  match f with
  | '[' :: _ =>
    let r := parseArgNumber f
    (false, f.drop r.1, r.2)
  | _ => (goodArgNum, f, false)

def badWidthString : List Char := "%!(BADWIDTH)".data
def badPrecString : List Char := "%!(BADPREC)".data
def noVerbString : List Char := "%!(NOVERB)".data

/-- Width part of a verb: returns the text written, `goodArgNum`, the characters left
and `afterIndex`. -/
def verbWidth (goodArgNum afterIndex : Bool) (f : List Char) :
    List Char × Bool × List Char × Bool :=
  match f with
  | '*' :: r => (badWidthString, goodArgNum, r, false)
  | _ =>
    let r := parsenum 0 false f
    ([], goodArgNum && !(afterIndex && r.1), r.2, afterIndex)

/-- Precision part of a verb: returns the text written, `goodArgNum`, the characters left
and `afterIndex`. -/
def verbPrecision (goodArgNum afterIndex : Bool) (f : List Char) :
    List Char × Bool × List Char × Bool :=
  match f with
  | '.' :: r =>
    let a := argNumber (goodArgNum && !afterIndex) r
    match a.2.1 with
    | '*' :: r1 => (badPrecString, a.1, r1, false)
    | _ => ([], a.1, (parsenum 0 false a.2.1).2, a.2.2)
  | _ => ([], goodArgNum, f, afterIndex)

/-- One verb of the format, given the characters after its `%`, with no operand left:
returns the text written and the characters left (`none` when the format ended inside
the verb, which ends the formatting loop). -/
def doVerb (f : List Char) : List Char × Option (List Char) :=
  let a := argNumber true (f.dropWhile isFlagChar)
  let w := verbWidth a.1 a.2.2 a.2.1
  let p := verbPrecision w.2.1 w.2.2.2 w.2.2.1
  let b := if p.2.2.2 then (p.2.1, p.2.2.1) else
    let n := argNumber p.2.1 p.2.2.1
    (n.1, n.2.1)
  match b.2 with
  | [] => (w.1 ++ p.1 ++ noVerbString, none)
  | verb :: r =>
    let o :=
      if verb = '%' then ['%']
      else if !b.1 then "%!".data ++ [verb] ++ "(BADINDEX)".data
      else "%!".data ++ [verb] ++ "(MISSING)".data
    (w.1 ++ p.1 ++ o, some r)

/-- The formatting loop of `(*pp).doPrintf` with no operand.  The fuel bounds the number
of iterations; every iteration consumes at least one character, so the length of the
format is enough. -/
def doPrintf : Nat → List Char → List Char
  | _, [] => []
  | 0, _ :: _ => []
  | fuel + 1, c :: rest =>
    if c = '%' then
      match doVerb rest with
      | (out, some rest1) => out ++ doPrintf fuel rest1
      | (out, none) => out
    else c :: doPrintf fuel rest

/-- Text produced by `fmt.Printf(format)` with no operand. -/
def sprintf0 (format : String) : String :=
  String.mk (doPrintf format.data.length format.data)

/-- The call `fmt.Printf(format)` with no operand: one write to standard output. -/
def fmtPrintf (format : String) : Proc Unit :=
  writeStdout (sprintf0 format)

/-! ## The program -/

/-- Return code of the plugin: `type rc int` with the constants `OK`, `WARNING`, `CRITICAL`. -/
inductive rc where
  | OK
  | WARNING
  | CRITICAL
deriving DecidableEq, Repr

/-- The integer behind a return code (`iota` numbering), as used by `int(r)`. -/
def rc.toInt : rc → Int
  | .OK => 0
  | .WARNING => 1
  | .CRITICAL => 2

/-- Method `func (s rc) String() string`. -/
def rc.String : rc → String
  | .OK => "OK: "
  | .WARNING => "WARNING: "
  | .CRITICAL => "CRITICAL: "

/-- Function `displayResult`: print the verdict line, then exit with the return code. -/
def displayResult (r : rc) (msg : String) : Proc Unit := do
  fmtPrintf (r.String ++ msg)
  osExit r.toInt

/-- The part of `swarm.Node` the program reads. -/
structure Node where
  /-- Field `Description.Hostname`. -/
  Hostname : String
  /-- Field `Status.State`. -/
  State : String
deriving DecidableEq, Repr

/-- Field `ServiceStatus` of `swarm.Service`. -/
structure ServiceStatus where
  RunningTasks : Nat
  DesiredTasks : Nat
deriving DecidableEq, Repr

/-- The part of `swarm.Service` the program reads. -/
structure Service where
  /-- Field `Spec.Name`. -/
  Name : String
  /-- Field `ServiceStatus`, a pointer that may be nil. -/
  ServiceStatus : Option ServiceStatus
deriving DecidableEq, Repr

/-- The Docker client as the program sees it: what each query answers, an error being the
text of `err.Error()`. -/
structure Client where
  /-- Answer of `cli.NodeList`. -/
  NodeList : Except String (List Node)
  /-- Answer of `cli.ServiceList` for the name filter given. -/
  ServiceList : String → Except String (List Service)

/-- The call `cli.NodeList(ctx, types.NodeListOptions{})`. -/
def cliNodeList (cli : Client) : Proc (Except String (List Node)) := do
  sendRequest .nodeList
  pure cli.NodeList

/-- The call `cli.ServiceList(ctx, ...)` with the filter `name = s` and `Status: true`. -/
def cliServiceList (cli : Client) (s : String) : Proc (Except String (List Service)) := do
  sendRequest (.serviceList s)
  pure (cli.ServiceList s)

/-- The value of `nodes` after the call: the list on success, nil on error. -/
def resultList {α : Type} : Except String (List α) → List α
  | .ok xs => xs
  | .error _ => []

/-- The loop collecting `nodes_down`: hostnames of the nodes whose state is `"down"`. -/
def nodesDown (nodes : List Node) : List String :=
  nodes.foldl (fun nodes_down v =>
    if v.State = "down" then nodes_down ++ [v.Hostname] else nodes_down) []

/-- The message `fmt.Sprintf("%d/%d node(s) down: %s\n", ...)`. -/
def nodesDownMsg (nodes_down : List String) (nodes : List Node) : String :=
  toString nodes_down.length ++ "/" ++ toString nodes.length ++ " node(s) down: "
    ++ String.intercalate ", " nodes_down ++ "\n"

/-- Function `getNodeState`. -/
def getNodeState (cli : Client) (warning critical : Int) : Proc Unit := do
  let res ← cliNodeList cli
  match res with
    | .error err => displayResult .CRITICAL (err ++ "\n")
    | .ok _ => pure ()
  let nodes := resultList res
  let nodes_down := nodesDown nodes
  if nodes_down.length = 0 then
    displayResult .OK (toString nodes.length ++ " nodes available\n")
  if (nodes_down.length : Int) ≥ critical then
    displayResult .CRITICAL (nodesDownMsg nodes_down nodes)
  if (nodes_down.length : Int) ≥ warning then
    displayResult .WARNING (nodesDownMsg nodes_down nodes)

/-- The loop of `getServiceState` over the services returned, carrying `running` and
`desired`. -/
def serviceLoop (s : String) : List Service → Nat × Nat → Proc (Nat × Nat)
  | [], acc => pure acc
  | v :: vs, acc =>
    match v.ServiceStatus with
    | some st =>
      serviceLoop s vs (if v.Name = s then (st.RunningTasks, st.DesiredTasks) else acc)
    | none => do
      displayResult .CRITICAL
        ("Could not receive ServiceStatus for " ++ s ++ ", maybe API does not support it!\n")
      serviceLoop s vs acc

/-- The message `fmt.Sprintf("%d/%d services of %s are running.\n", running, desired, s)`. -/
def servicesMsg (running desired : Nat) (s : String) : String :=
  toString running ++ "/" ++ toString desired ++ " services of " ++ s ++ " are running.\n"

/-- Function `getServiceState`. -/
def getServiceState (s : String) (cli : Client) : Proc Unit := do
  let res ← cliServiceList cli s
  match res with
    | .error err => displayResult .CRITICAL (err ++ "\n")
    | .ok _ => pure ()
  let services := resultList res
  if services.length = 0 then
    displayResult .CRITICAL ("Could not find service " ++ s ++ "!\n")
  let rd ← serviceLoop s services (0, 0)
  if rd.1 = 0 ∧ rd.2 ≠ 0 then
    displayResult .CRITICAL ("No service for " ++ s ++ " is running!\n")
  if rd.1 ≠ rd.2 then
    displayResult .WARNING (servicesMsg rd.1 rd.2 s)
  displayResult .OK (servicesMsg rd.1 rd.2 s)

/-! ## Command line -/

/-- Values of the four flags `-n`, `-w`, `-c`, `-s`. -/
structure Flags where
  flagNodes : Bool
  flagNodesWarning : Int
  flagNodesCritical : Int
  flagService : String
deriving DecidableEq, Repr

/-- The defaults given to `flag.Bool`, `flag.Int`, `flag.Int`, `flag.String`. -/
def defaultFlags : Flags :=
  { flagNodes := false, flagNodesWarning := 1, flagNodesCritical := 1, flagService := "" }

/-- How `flag.Parse` ends. -/
inductive ParseResult where
  /-- Parsing finished; the flags hold these values. -/
  | parsed (fl : Flags)
  /-- An undefined `-h` or `-help` was met (`flag.ErrHelp`). -/
  | help
  /-- Any other parse error. -/
  | failed
deriving DecidableEq, Repr

/-- Follows `strconv.ParseBool`. -/
def parseBool (str : String) : Option Bool :=
  if str ∈ ["1", "t", "T", "TRUE", "true", "True"] then some true
  else if str ∈ ["0", "f", "F", "FALSE", "false", "False"] then some false
  else none

/-- Split `name=value` at the first `=` that is not the first character. -/
def splitFlag (name : List Char) : String × Option String :=
  match name with
  | [] => ("", none)
  | c :: cs =>
    let pre := cs.takeWhile (fun x => x != '=')
    if pre.length < cs.length then
      (String.mk (c :: pre), some (String.mk (cs.drop (pre.length + 1))))
    else (String.mk name, none)

/-- Store the value of a flag that takes an argument (`-w`, `-c`, `-s`); `none` when the
value is refused.  `parseInt` stands for `strconv.ParseInt(s, 0, strconv.IntSize)`. -/
def setValue (parseInt : String → Option Int) (fl : Flags) (name value : String) :
    Option Flags :=
  if name = "w" then (parseInt value).map (fun i => { fl with flagNodesWarning := i })
  else if name = "c" then (parseInt value).map (fun i => { fl with flagNodesCritical := i })
  else some { fl with flagService := value }

/-- Follows `(*FlagSet).Parse` and `parseOne` of package `flag` for the four flags of the
program, over the arguments after the program name. -/
def flagParse (parseInt : String → Option Int) : Flags → List String → ParseResult
  | fl, [] => .parsed fl
  | fl, s :: rest =>
    match s.data with
    | '-' :: c :: cs =>
      if c = '-' ∧ cs = [] then .parsed fl
      else
        let name0 := if c = '-' then cs else c :: cs
        if name0.head? = some '-' ∨ name0.head? = some '=' ∨ name0 = [] then .failed
        else
          let nv := splitFlag name0
          if nv.1 = "n" then
            match nv.2 with
            | some value =>
              match parseBool value with
              | some b => flagParse parseInt { fl with flagNodes := b } rest
              | none => .failed
            | none => flagParse parseInt { fl with flagNodes := true } rest
          else if nv.1 = "w" ∨ nv.1 = "c" ∨ nv.1 = "s" then
            match nv.2 with
            | some value =>
              match setValue parseInt fl nv.1 value with
              | some fl1 => flagParse parseInt fl1 rest
              | none => .failed
            | none =>
              match rest with
              | value :: rest1 =>
                match setValue parseInt fl nv.1 value with
                | some fl1 => flagParse parseInt fl1 rest1
                | none => .failed
              | [] => .failed
          else if nv.1 = "help" ∨ nv.1 = "h" then .help
          else .failed
    | _ => .parsed fl

/-- Follows `filepath.Base` on a Unix path. -/
def filepathBase (path : String) : String :=
  if path = "" then "."
  else
    let stripped := (path.data.reverse.dropWhile (fun c => c == '/')).reverse
    let last := (stripped.reverse.takeWhile (fun c => c != '/')).reverse
    if last = [] then "/" else String.mk last

/-- The variable `version`. -/
def version : String := "1.0.0"

/-- The closure assigned to `flag.Usage`; `flag.PrintDefaults` writes the flag table to
standard error, which is not tracked. -/
def flagUsage (prog : String) : Proc Unit := do
  writeStdout ("Usage of " ++ filepathBase prog ++ ":\n\n")
  fmtPrintf "It displays the state of nodes or a service of a docker swarm cluster.\n\n"
  writeStdout ("Version: " ++ version ++ " - https://github.com/EmmaTinten/go-monitoring-plugins\n\n")

/-- What the process environment answers. -/
structure Env where
  /-- The function `strconv.ParseInt(s, 0, strconv.IntSize)`, `none` on error. -/
  parseInt : String → Option Int
  /-- Answer of `client.NewClientWithOpts(client.FromEnv)`. -/
  newClient : Except String Client

/-- The call `flag.Parse()`: the command line uses `flag.ExitOnError`, so a help request
exits with 0 and any other error with 2, both after calling `flag.Usage`. -/
def flagParseExit (env : Env) (prog : String) (args : List String) : Proc Flags :=
  match flagParse env.parseInt defaultFlags args with
  | .parsed fl => pure fl
  | .help => do
    flagUsage prog
    osExit 0
  | .failed => do
    flagUsage prog
    osExit 2

/-- Function `main`, with `os.Args = prog :: args`.  When the client cannot be built
`displayResult` ends the process, so the checks run only with a client. -/
def main (env : Env) (prog : String) (args : List String) : Proc Unit := do
  let fl ← flagParseExit env prog args
  if (prog :: args).length < 2 then
    flagUsage prog
    osExit 1
  match env.newClient with
  | .error err => displayResult .CRITICAL (err ++ "\n")
  | .ok cli =>
    if fl.flagNodes then
      getNodeState cli fl.flagNodesWarning fl.flagNodesCritical
    if fl.flagService ≠ "" then
      getServiceState fl.flagService cli

/-- The world a process starts in. -/
def World.init : World := { stdout := [], requests := [] }

/-- Run the program to the end of the process: what it has written and queried, and its
exit code (0 when `main` returns). -/
def run (env : Env) (prog : String) (args : List String) : World × Int :=
  match main env prog args World.init with
  | .exited w code => (w, code)
  | .running w _ => (w, 0)

/-! ## Specification-side definitions -/

/-- The down-set `D` in the words of the specification: hostnames of the nodes whose state
is exactly `"down"`, in discovery order. -/
def downHostsSpec (nodes : List Node) : List String :=
  (nodes.filter (fun v => decide (v.State = "down"))).map (fun v => v.Hostname)

/-- The verdict table of the specification: printed prefix and exit code. -/
def verdictTableSpec : rc → String × Int
  | .OK => ("OK: ", 0)
  | .WARNING => ("WARNING: ", 1)
  | .CRITICAL => ("CRITICAL: ", 2)

/-- The world after one more query has been sent. -/
def World.afterRequest (w : World) (r : Request) : World :=
  { w with requests := w.requests ++ [r] }

/-- An environment for concrete runs: the numerals `1`, `2` and `3` are parsed to their
values (as `strconv.ParseInt` does), the client is built and answers with the given nodes
and services. -/
def exampleEnv (nodes : List Node) (services : List Service) : Env :=
  { parseInt := fun s =>
      if s = "1" then some 1 else if s = "2" then some 2 else if s = "3" then some 3
      else none
    newClient := .ok { NodeList := .ok nodes, ServiceList := fun _ => .ok services } }

/-! ## Lemmas on the formatter -/

theorem doPrintf_append_plain (a b : List Char) (n : Nat) (ha : ∀ c ∈ a, c ≠ '%') :
    doPrintf (a.length + n) (a ++ b) = a ++ doPrintf n b := by
  induction a with
  | nil => simp
  | cons c cs ih =>
    have hc : c ≠ '%' := ha c (by simp)
    have hcs : ∀ x ∈ cs, x ≠ '%' := fun x hx => ha x (by simp [hx])
    have hlen : (c :: cs).length + n = (cs.length + n) + 1 := by simp; omega
    rw [hlen]
    simp only [List.cons_append, doPrintf, if_neg hc]
    exact congrArg (fun l => c :: l) (ih hcs)

theorem doPrintf_plain (a : List Char) (ha : ∀ c ∈ a, c ≠ '%') :
    doPrintf a.length a = a := by
  have h := doPrintf_append_plain a [] 0 ha
  simpa [doPrintf] using h

/-- A format without `%` is printed as it is. -/
theorem sprintf0_plain (s : String) (hs : ∀ c ∈ s.data, c ≠ '%') : sprintf0 s = s := by
  unfold sprintf0
  rw [doPrintf_plain s.data hs]

/-- A leading part without `%` is printed as it is, and the rest is formatted on its own. -/
theorem sprintf0_append_plain (a b : String) (ha : ∀ c ∈ a.data, c ≠ '%') :
    sprintf0 (a ++ b) = a ++ sprintf0 b := by
  unfold sprintf0
  rw [String.data_append, List.length_append, doPrintf_append_plain a.data b.data _ ha]
  rfl

theorem parsenum_length (num : Nat) (isnum : Bool) (l : List Char) :
    (parsenum num isnum l).2.length ≤ l.length := by
  induction l generalizing num isnum with
  | nil => simp [parsenum]
  | cons c cs ih =>
    unfold parsenum
    split_ifs
    · simp
    · exact Nat.le_succ_of_le (ih _ _)
    · simp

theorem argNumber_length (good : Bool) (f : List Char) :
    (argNumber good f).2.1.length ≤ f.length := by
  unfold argNumber
  split
  · simp
  · simp

theorem verbWidth_length (good afterIndex : Bool) (f : List Char) :
    (verbWidth good afterIndex f).2.2.1.length ≤ f.length := by
  unfold verbWidth
  split
  · simp
  · exact parsenum_length _ _ _

theorem verbPrecision_length (good afterIndex : Bool) (f : List Char) :
    (verbPrecision good afterIndex f).2.2.1.length ≤ f.length := by
  unfold verbPrecision
  split
  · rename_i r
    have ha := argNumber_length (good && !afterIndex) r
    generalize argNumber (good && !afterIndex) r = a at ha
    obtain ⟨g, rest, ai⟩ := a
    simp only at ha ⊢
    cases rest with
    | nil => simp [parsenum]
    | cons c r1 =>
      have hp := parsenum_length 0 false (c :: r1)
      simp only [List.length_cons] at ha hp ⊢
      split
      · rename_i heq
        simp only [List.cons.injEq] at heq
        obtain ⟨_, rfl⟩ := heq
        simp only
        omega
      · simp only
        omega
  · simp

/-- A verb consumes at least its verb character. -/
theorem doVerb_length (f : List Char) (out r : List Char) (h : doVerb f = (out, some r)) :
    r.length < f.length := by
  have h1 : (f.dropWhile isFlagChar).length ≤ f.length :=
    (List.dropWhile_sublist _).length_le
  have h2 := argNumber_length true (f.dropWhile isFlagChar)
  have h3 := verbWidth_length (argNumber true (f.dropWhile isFlagChar)).1
    (argNumber true (f.dropWhile isFlagChar)).2.2 (argNumber true (f.dropWhile isFlagChar)).2.1
  generalize hw : verbWidth (argNumber true (f.dropWhile isFlagChar)).1
    (argNumber true (f.dropWhile isFlagChar)).2.2
    (argNumber true (f.dropWhile isFlagChar)).2.1 = w at h3
  have h4 := verbPrecision_length w.2.1 w.2.2.2 w.2.2.1
  generalize hp : verbPrecision w.2.1 w.2.2.2 w.2.2.1 = p at h4
  have h5 := argNumber_length p.2.1 p.2.2.1
  unfold doVerb at h
  simp only [hw, hp] at h
  split at h
  · simp at h
  · rename_i verb r1 heq
    simp only [Prod.mk.injEq, Option.some.injEq] at h
    obtain ⟨_, rfl⟩ := h
    by_cases hidx : p.2.2.2 = true
    · simp only [hidx, if_true] at heq
      rw [heq] at h4
      simp only [List.length_cons] at h4
      omega
    · simp only [hidx] at heq
      simp only [Bool.false_eq_true, if_false] at heq
      rw [heq] at h5
      simp only [List.length_cons] at h5
      omega

/-- Any fuel at least the length of the format gives the same text: the loop is never cut
short by the fuel `sprintf0` passes. -/
theorem doPrintf_fuel (n m : Nat) (f : List Char) (hn : f.length ≤ n) (hm : f.length ≤ m) :
    doPrintf n f = doPrintf m f := by
  induction n generalizing m f with
  | zero =>
    have hf : f = [] := List.length_eq_zero.mp (Nat.le_zero.mp hn)
    subst hf
    cases m <;> rfl
  | succ k ih =>
    cases f with
    | nil => cases m <;> rfl
    | cons c rest =>
      cases m with
      | zero => simp at hm
      | succ j =>
        simp only [List.length_cons, Nat.add_le_add_iff_right] at hn hm
        unfold doPrintf
        by_cases hc : c = '%'
        · simp only [hc, if_true]
          rcases hv : doVerb rest with ⟨out, _ | r1⟩
          · rfl
          · have hlt := doVerb_length rest out r1 hv
            simp only
            rw [ih j r1 (by omega) (by omega)]
        · simp only [hc, if_false]
          rw [ih j rest hn hm]

theorem digitChar_ne_percent (d : Nat) (hd : d < 10) : Nat.digitChar d ≠ '%' := by
  interval_cases d <;> decide

theorem toDigitsCore_plain (fuel n : Nat) (ds : List Char) (hds : ∀ c ∈ ds, c ≠ '%') :
    ∀ c ∈ Nat.toDigitsCore 10 fuel n ds, c ≠ '%' := by
  induction fuel generalizing n ds with
  | zero => simpa [Nat.toDigitsCore] using hds
  | succ k ih =>
    have hd : Nat.digitChar (n % 10) ≠ '%' := digitChar_ne_percent _ (Nat.mod_lt _ (by decide))
    have hcons : ∀ c ∈ Nat.digitChar (n % 10) :: ds, c ≠ '%' := by
      intro c hc
      rcases List.mem_cons.mp hc with h | h
      · exact h ▸ hd
      · exact hds c h
    unfold Nat.toDigitsCore
    by_cases h0 : n / 10 = 0
    · simpa [h0] using hcons
    · simpa [h0] using ih (n / 10) _ hcons

/-- The decimal rendering of a natural number holds no `%`. -/
theorem natToString_plain (n : Nat) : ∀ c ∈ (toString n).data, c ≠ '%' := by
  show ∀ c ∈ (Nat.repr n).data, c ≠ '%'
  unfold Nat.repr Nat.toDigits
  simpa [List.asString] using toDigitsCore_plain (n + 1) n [] (by simp)

/-! ## Lemmas on the program -/

/-- What `displayResult` does: one write, then exit with the return code. -/
theorem displayResult_eq (r : rc) (msg : String) (w : World) :
    displayResult r msg w =
      .exited { w with stdout := w.stdout ++ [sprintf0 (r.String ++ msg)] } r.toInt := rfl

/-- Nothing runs after `displayResult`. -/
theorem displayResult_bind {β : Type} (r : rc) (msg : String) (f : Unit → Proc β) :
    (displayResult r msg).bind f = fun w =>
      .exited { w with stdout := w.stdout ++ [sprintf0 (r.String ++ msg)] } r.toInt := rfl

theorem Proc.pure_bind {α β : Type} (a : α) (f : α → Proc β) :
    (Proc.pure a).bind f = f a := rfl

theorem rcString_plain (r : rc) : ∀ c ∈ r.String.data, c ≠ '%' := by
  cases r <;> decide

/-- The text `displayResult` writes starts with the prefix of the verdict. -/
theorem displayResult_text (r : rc) (msg : String) :
    sprintf0 (r.String ++ msg) = r.String ++ sprintf0 msg :=
  sprintf0_append_plain _ _ (rcString_plain r)

theorem nodesDown_foldl (nodes : List Node) (acc : List String) :
    nodes.foldl (fun nodes_down v =>
      if v.State = "down" then nodes_down ++ [v.Hostname] else nodes_down) acc
      = acc ++ downHostsSpec nodes := by
  induction nodes generalizing acc with
  | nil => simp [downHostsSpec]
  | cons v vs ih =>
    by_cases h : v.State = "down"
    · simp [List.foldl, h, ih, downHostsSpec]
    · simp [List.foldl, h, ih, downHostsSpec]

/-- The loop of `getNodeState` collects the down-set of the specification. -/
theorem nodesDown_eq (nodes : List Node) : nodesDown nodes = downHostsSpec nodes := by
  simpa [nodesDown] using nodesDown_foldl nodes []

/-- The branches of `getNodeState` once the node list has been received. -/
theorem getNodeState_ok (cli : Client) (nodes : List Node) (warning critical : Int)
    (w : World) (h : cli.NodeList = .ok nodes) :
    getNodeState cli warning critical w =
      if (nodesDown nodes).length = 0 then
        displayResult .OK (toString nodes.length ++ " nodes available\n")
          (w.afterRequest .nodeList)
      else if ((nodesDown nodes).length : Int) ≥ critical then
        displayResult .CRITICAL (nodesDownMsg (nodesDown nodes) nodes)
          (w.afterRequest .nodeList)
      else if ((nodesDown nodes).length : Int) ≥ warning then
        displayResult .WARNING (nodesDownMsg (nodesDown nodes) nodes)
          (w.afterRequest .nodeList)
      else .running (w.afterRequest .nodeList) () := by
  simp only [getNodeState, cliNodeList, bind, Proc.bind, sendRequest, pure, Proc.pure, h,
    resultList, World.afterRequest]
  by_cases h0 : (nodesDown nodes).length = 0
  · simp [h0, displayResult_eq, displayResult_bind]
  · by_cases hc : ((nodesDown nodes).length : Int) ≥ critical
    · simp [h0, hc, displayResult_eq, displayResult_bind, Proc.pure_bind]
    · by_cases hw : ((nodesDown nodes).length : Int) ≥ warning
      · simp [h0, hc, hw, displayResult_eq, displayResult_bind, Proc.pure_bind]
      · simp [h0, hc, hw, Proc.pure_bind, Proc.pure]

/-- A client whose node query answers with the given list. -/
def nodeClient (nodes : List Node) : Client :=
  { NodeList := .ok nodes, ServiceList := fun _ => .ok [] }

theorem downHostsSpec_nil_of_up (nodes : List Node) (hup : ∀ v ∈ nodes, v.State ≠ "down") :
    downHostsSpec nodes = [] := by
  unfold downHostsSpec
  rw [List.map_eq_nil_iff, List.filter_eq_nil_iff]
  intro v hv
  simpa using hup v hv

/-! ## Node check -/

/-- C1. Node check with no node down: for a node list of any length `N` in which no state is
exactly `"down"`, and any thresholds, `getNodeState` calls `displayResult` with `OK` and
the message `"N nodes available\n"`; the process writes `OK: N nodes available\n` and
exits with code 0. -/
theorem getNodeState_no_node_down (cli : Client) (nodes : List Node)
    (warning critical : Int) (w : World)
    (hlist : cli.NodeList = .ok nodes)
    (hup : ∀ v ∈ nodes, v.State ≠ "down") :
    getNodeState cli warning critical w =
        displayResult .OK (toString nodes.length ++ " nodes available\n")
          (w.afterRequest .nodeList)
      ∧ getNodeState cli warning critical w =
        .exited
          { stdout := w.stdout ++ ["OK: " ++ toString nodes.length ++ " nodes available\n"],
            requests := w.requests ++ [.nodeList] } 0 := by
  have hD : (nodesDown nodes).length = 0 := by
    rw [nodesDown_eq, downHostsSpec_nil_of_up nodes hup]; rfl
  have hrun := getNodeState_ok cli nodes warning critical w hlist
  rw [if_pos hD] at hrun
  refine ⟨hrun, ?_⟩
  rw [hrun, displayResult_eq]
  have hplain : ∀ c ∈ (rc.OK.String ++ (toString nodes.length ++ " nodes available\n")).data,
      c ≠ '%' := by
    intro c hc
    simp only [String.data_append, List.mem_append] at hc
    rcases hc with h | h | h
    · exact rcString_plain _ c h
    · exact natToString_plain _ c h
    · revert c; decide
  rw [sprintf0_plain _ hplain]
  simp [World.afterRequest, rc.String, rc.toInt, String.append_assoc]

theorem getNodeState_no_node_down_witness :
    (∀ v ∈ [Node.mk "a" "ready", Node.mk "b" "unknown", Node.mk "c" "Down"],
        v.State ≠ "down")
      ∧ getNodeState
          (nodeClient [Node.mk "a" "ready", Node.mk "b" "unknown", Node.mk "c" "Down"])
          1 1 World.init =
        .exited { stdout := ["OK: 3 nodes available\n"], requests := [.nodeList] } 0 :=
  ⟨by decide,
    (getNodeState_no_node_down
      (nodeClient [Node.mk "a" "ready", Node.mk "b" "unknown", Node.mk "c" "Down"])
      [Node.mk "a" "ready", Node.mk "b" "unknown", Node.mk "c" "Down"] 1 1 World.init rfl
      (by decide)).2⟩

/-- C2. Node check, critical threshold: when the node list is received, `critical ≥ 1` and
the number of down nodes is at least `critical`, `getNodeState` calls `displayResult` with
`CRITICAL` (message `|D|/N node(s) down: hosts`), whatever `warning` is; the line written
starts with `CRITICAL: ` and the exit code is 2. -/
theorem getNodeState_critical (cli : Client) (nodes : List Node)
    (warning critical : Int) (w : World)
    (hlist : cli.NodeList = .ok nodes)
    (hc : 1 ≤ critical)
    (hd : critical ≤ ((downHostsSpec nodes).length : Int)) :
    getNodeState cli warning critical w =
        displayResult .CRITICAL (nodesDownMsg (downHostsSpec nodes) nodes)
          (w.afterRequest .nodeList)
      ∧ getNodeState cli warning critical w =
        .exited
          { stdout := w.stdout ++
              ["CRITICAL: " ++ sprintf0 (nodesDownMsg (downHostsSpec nodes) nodes)],
            requests := w.requests ++ [.nodeList] } 2 := by
  have hrun := getNodeState_ok cli nodes warning critical w hlist
  rw [nodesDown_eq] at hrun
  have h0 : ¬ (downHostsSpec nodes).length = 0 := by omega
  rw [if_neg h0, if_pos (show ((downHostsSpec nodes).length : Int) ≥ critical from hd)] at hrun
  refine ⟨hrun, ?_⟩
  rw [hrun, displayResult_eq, displayResult_text]
  simp [World.afterRequest, rc.String, rc.toInt]

theorem getNodeState_critical_witness :
    (1 : Int) ≤ 2
      ∧ (2 : Int) ≤ ((downHostsSpec
          [Node.mk "a" "down", Node.mk "b" "down", Node.mk "c" "ready"]).length : Int)
      ∧ getNodeState
          (nodeClient [Node.mk "a" "down", Node.mk "b" "down", Node.mk "c" "ready"])
          1 2 World.init =
        displayResult .CRITICAL
          (nodesDownMsg
            (downHostsSpec [Node.mk "a" "down", Node.mk "b" "down", Node.mk "c" "ready"])
            [Node.mk "a" "down", Node.mk "b" "down", Node.mk "c" "ready"])
          (World.init.afterRequest .nodeList) :=
  ⟨by decide, by decide,
    (getNodeState_critical
      (nodeClient [Node.mk "a" "down", Node.mk "b" "down", Node.mk "c" "ready"])
      [Node.mk "a" "down", Node.mk "b" "down", Node.mk "c" "ready"] 1 2 World.init rfl
      (by decide) (by decide)).1⟩

/-- C3. Node check, warning band: when the node list is received, `warning ≥ 1` and the
number of down nodes `|D|` satisfies `warning ≤ |D| < critical`, `getNodeState` calls
`displayResult` with `WARNING` (not `OK`, not `CRITICAL`); the line written starts with
`WARNING: ` and the exit code is 1. -/
theorem getNodeState_warning (cli : Client) (nodes : List Node)
    (warning critical : Int) (w : World)
    (hlist : cli.NodeList = .ok nodes)
    (hw : 1 ≤ warning)
    (hlo : warning ≤ ((downHostsSpec nodes).length : Int))
    (hhi : ((downHostsSpec nodes).length : Int) < critical) :
    getNodeState cli warning critical w =
        displayResult .WARNING (nodesDownMsg (downHostsSpec nodes) nodes)
          (w.afterRequest .nodeList)
      ∧ getNodeState cli warning critical w =
        .exited
          { stdout := w.stdout ++
              ["WARNING: " ++ sprintf0 (nodesDownMsg (downHostsSpec nodes) nodes)],
            requests := w.requests ++ [.nodeList] } 1 := by
  have hrun := getNodeState_ok cli nodes warning critical w hlist
  rw [nodesDown_eq] at hrun
  have h0 : ¬ (downHostsSpec nodes).length = 0 := by omega
  have hnc : ¬ ((downHostsSpec nodes).length : Int) ≥ critical := by omega
  rw [if_neg h0, if_neg hnc,
    if_pos (show ((downHostsSpec nodes).length : Int) ≥ warning from hlo)] at hrun
  refine ⟨hrun, ?_⟩
  rw [hrun, displayResult_eq, displayResult_text]
  simp [World.afterRequest, rc.String, rc.toInt]

theorem getNodeState_warning_witness :
    (1 : Int) ≤ 1
      ∧ (1 : Int) ≤ ((downHostsSpec
          [Node.mk "a" "ready", Node.mk "b" "down", Node.mk "c" "ready"]).length : Int)
      ∧ ((downHostsSpec
          [Node.mk "a" "ready", Node.mk "b" "down", Node.mk "c" "ready"]).length : Int) < 2
      ∧ getNodeState
          (nodeClient [Node.mk "a" "ready", Node.mk "b" "down", Node.mk "c" "ready"])
          1 2 World.init =
        .exited
          { stdout := World.init.stdout ++
              ["WARNING: " ++ sprintf0 (nodesDownMsg
                (downHostsSpec [Node.mk "a" "ready", Node.mk "b" "down", Node.mk "c" "ready"])
                [Node.mk "a" "ready", Node.mk "b" "down", Node.mk "c" "ready"])],
            requests := World.init.requests ++ [.nodeList] } 1 :=
  ⟨by decide, by decide, by decide,
    (getNodeState_warning
      (nodeClient [Node.mk "a" "ready", Node.mk "b" "down", Node.mk "c" "ready"])
      [Node.mk "a" "ready", Node.mk "b" "down", Node.mk "c" "ready"] 1 2 World.init rfl
      (by decide) (by decide) (by decide)).2⟩

/-- C4. Node check message: when the node list (of length `N`) is received and
`getNodeState` ends the process with the exit code of `WARNING` or of `CRITICAL`, it does
so through `displayResult` with exactly the message `"|D|/N node(s) down: hosts\n"`, where
`hosts` joins with `", "` the hostnames of the nodes whose state is `"down"`, in list
order, and `|D|` is the number of hostnames listed. -/
theorem getNodeState_message (cli : Client) (nodes : List Node)
    (warning critical : Int) (w : World) (r : rc)
    (hlist : cli.NodeList = .ok nodes)
    (hr : r = .WARNING ∨ r = .CRITICAL)
    (hexit : ∃ w1, getNodeState cli warning critical w = .exited w1 r.toInt) :
    getNodeState cli warning critical w =
      displayResult r
        (toString (downHostsSpec nodes).length ++ "/" ++ toString nodes.length
          ++ " node(s) down: " ++ String.intercalate ", " (downHostsSpec nodes) ++ "\n")
        (w.afterRequest .nodeList) := by
  obtain ⟨w1, hw1⟩ := hexit
  have hrun := getNodeState_ok cli nodes warning critical w hlist
  rw [nodesDown_eq] at hrun
  rw [hrun] at hw1 ⊢
  split_ifs at hw1 ⊢ with h0 hc hwarn
  · rcases hr with rfl | rfl <;> simp [displayResult_eq, rc.toInt] at hw1
  · rcases hr with rfl | rfl
    · simp [displayResult_eq, rc.toInt] at hw1
    · rfl
  · rcases hr with rfl | rfl
    · rfl
    · simp [displayResult_eq, rc.toInt] at hw1

theorem getNodeState_message_witness :
    (rc.CRITICAL = .WARNING ∨ rc.CRITICAL = .CRITICAL)
      ∧ getNodeState
          (nodeClient [Node.mk "a" "down", Node.mk "b" "ready", Node.mk "c" "down"])
          1 2 World.init =
        displayResult .CRITICAL
          (toString
              (downHostsSpec
                [Node.mk "a" "down", Node.mk "b" "ready", Node.mk "c" "down"]).length
            ++ "/" ++ toString [Node.mk "a" "down", Node.mk "b" "ready", Node.mk "c" "down"].length
            ++ " node(s) down: "
            ++ String.intercalate ", "
              (downHostsSpec [Node.mk "a" "down", Node.mk "b" "ready", Node.mk "c" "down"])
            ++ "\n")
          (World.init.afterRequest .nodeList) :=
  ⟨by decide,
    getNodeState_message
      (nodeClient [Node.mk "a" "down", Node.mk "b" "ready", Node.mk "c" "down"])
      [Node.mk "a" "down", Node.mk "b" "ready", Node.mk "c" "down"] 1 2 World.init .CRITICAL
      rfl (by decide)
      ⟨{ stdout := ["CRITICAL: 2/3 node(s) down: a, c\n"], requests := [.nodeList] },
        by decide⟩⟩

/-! ## Result emitter -/

/-- C5. Exit-code faithfulness: for every verdict and message, `displayResult` writes a
text that starts with the prefix the verdict table gives for that verdict and exits with
the code the table gives for the same verdict; and whichever of the three prefixes the
written text starts with, the exit code is the one the table maps that prefix to. -/
theorem displayResult_exit_code_faithful (r : rc) (msg : String) (w : World) :
    displayResult r msg w =
        .exited { w with stdout := w.stdout ++ [(verdictTableSpec r).1 ++ sprintf0 msg] }
          (verdictTableSpec r).2
      ∧ ∀ r1 : rc,
          (verdictTableSpec r1).1.data <+: ((verdictTableSpec r).1 ++ sprintf0 msg).data →
          (verdictTableSpec r1).2 = (verdictTableSpec r).2 := by
  constructor
  · rw [displayResult_eq, displayResult_text]
    cases r <;> rfl
  · intro r1 hpre
    cases r <;> cases r1 <;>
      simp [verdictTableSpec, String.data_append, List.prefix_iff_eq_take] at hpre ⊢

/-! ## Command line and selection -/

/-- C6, evaluated at the failing input `-n -w 2 -c 2` with one node of two down: the node
check falls through all three branches, `main` returns, and the process ends with exit
code 0 having written nothing to standard output. -/
theorem main_silent_below_thresholds :
    run (exampleEnv [Node.mk "a" "down", Node.mk "b" "ready"] []) "check_docker_swarm"
        ["-n", "-w", "2", "-c", "2"]
      = ({ stdout := [], requests := [.nodeList] }, 0) := by
  decide

/-- The three writes of the usage text to standard output. -/
def usageText (prog : String) : List String :=
  ["Usage of " ++ filepathBase prog ++ ":\n\n",
   "It displays the state of nodes or a service of a docker swarm cluster.\n\n",
   "Version: 1.0.0 - https://github.com/EmmaTinten/go-monitoring-plugins\n\n"]

/-- C7, as stated, fails at the argument vector `-w 2`: no selector is given, yet nothing
is written to standard output and the exit code is 0, not 1. -/
theorem main_thresholds_only_counterexample :
    flagParse (exampleEnv [] []).parseInt defaultFlags ["-w", "2"]
        = .parsed { flagNodes := false, flagNodesWarning := 2, flagNodesCritical := 1,
                    flagService := "" }
      ∧ run (exampleEnv [] []) "check_docker_swarm" ["-w", "2"]
        = ({ stdout := [], requests := [] }, 0)
      ∧ run (exampleEnv [] []) "check_docker_swarm" ["-w", "2"]
        ≠ ({ stdout := usageText "check_docker_swarm", requests := [] }, 1) := by
  decide

/-- C8, evaluated at the failing input `-n -s web -w 2 -c 2` with one node of two down:
the node check emits nothing, the service list is queried and the verdict written is the
one of the service check. -/
theorem main_service_after_silent_node_check :
    run (exampleEnv [Node.mk "a" "down", Node.mk "b" "ready"]
          [Service.mk "web" (some (ServiceStatus.mk 1 1))])
        "check_docker_swarm" ["-n", "-s", "web", "-w", "2", "-c", "2"]
      = ({ stdout := ["OK: 1/1 services of web are running.\n"],
           requests := [.nodeList, .serviceList "web"] }, 0) := by
  decide

/-- C7, amended. For every argument vector that `flag.Parse` accepts and that selects no
check (`-n` false and `-s` empty), `main` runs no check: no query is sent to the Docker
API.  When the vector holds no argument at all, `main` writes the usage text to standard
output and exits with code 1. -/
theorem main_no_selector (env : Env) (prog : String) (args : List String) (fl : Flags)
    (hparse : flagParse env.parseInt defaultFlags args = .parsed fl)
    (hn : fl.flagNodes = false) (hs : fl.flagService = "") :
    (run env prog args).1.requests = []
      ∧ (args = [] →
          run env prog args = ({ stdout := usageText prog, requests := [] }, 1)) := by
  constructor
  · cases args with
    | nil => rfl
    | cons a as =>
      have hlen : ¬ (as.length + 1 + 1 < 2) := by omega
      cases hcl : env.newClient with
      | error err =>
        simp [run, main, flagParseExit, hparse, hcl, hlen, bind, Proc.bind, pure,
          Proc.pure, displayResult_eq, World.init]
      | ok cli =>
        simp [run, main, flagParseExit, hparse, hcl, hn, hs, hlen, bind, Proc.bind, pure,
          Proc.pure, World.init]
  · intro hargs
    subst hargs
    rfl

theorem main_no_selector_witness :
    flagParse (exampleEnv [] []).parseInt defaultFlags ["-c", "3"]
        = .parsed { flagNodes := false, flagNodesWarning := 1, flagNodesCritical := 3,
                    flagService := "" }
      ∧ (run (exampleEnv [] []) "check_docker_swarm" ["-c", "3"]).1.requests = [] :=
  ⟨by decide,
    (main_no_selector (exampleEnv [] []) "check_docker_swarm" ["-c", "3"]
      { flagNodes := false, flagNodesWarning := 1, flagNodesCritical := 3,
        flagService := "" } (by decide) rfl rfl).1⟩

/-! ## Service check -/

/-- The message for a service without status. -/
def statusAbsentMsg (s : String) : String :=
  "Could not receive ServiceStatus for " ++ s ++ ", maybe API does not support it!\n"

/-- A client whose service query answers with the given list. -/
def serviceClient (services : List Service) : Client :=
  { NodeList := .ok [], ServiceList := fun _ => .ok services }

theorem Proc.bind_exited {α β : Type} (m : Proc α) (f : α → Proc β) (w w1 : World)
    (code : Int) (h : m w = .exited w1 code) : m.bind f w = .exited w1 code := by
  simp [Proc.bind, h]

/-- The loop stops at the first service without status, whatever it has read before. -/
theorem serviceLoop_absent (s : String) (vs : List Service) (acc : Nat × Nat) (w : World)
    (h : ∃ v ∈ vs, v.ServiceStatus = none) :
    serviceLoop s vs acc w =
      .exited { w with stdout := w.stdout ++ [sprintf0 (rc.CRITICAL.String ++ statusAbsentMsg s)] }
        rc.CRITICAL.toInt := by
  induction vs generalizing acc with
  | nil => simp at h
  | cons v vs ih =>
    cases hst : v.ServiceStatus with
    | none =>
      simp only [serviceLoop, hst, bind]
      rw [displayResult_bind]
      rfl
    | some st =>
      have hrest : ∃ x ∈ vs, x.ServiceStatus = none := by
        obtain ⟨x, hx, hxn⟩ := h
        rcases List.mem_cons.mp hx with rfl | hx
        · rw [hst] at hxn; cases hxn
        · exact ⟨x, hx, hxn⟩
      simp only [serviceLoop, hst]
      exact ih _ hrest

/-- C9. Service check, nothing returned: for every service name `s`, when the service
query succeeds with an empty list, `getServiceState` calls `displayResult` with `CRITICAL`
and the message `"Could not find service s!\n"`; the line written starts with
`CRITICAL: ` and the exit code is 2. -/
theorem getServiceState_not_found (s : String) (cli : Client) (w : World)
    (hlist : cli.ServiceList s = .ok []) :
    getServiceState s cli w =
        displayResult .CRITICAL ("Could not find service " ++ s ++ "!\n")
          (w.afterRequest (.serviceList s))
      ∧ getServiceState s cli w =
        .exited
          { stdout := w.stdout ++
              ["CRITICAL: " ++ sprintf0 ("Could not find service " ++ s ++ "!\n")],
            requests := w.requests ++ [.serviceList s] } 2 := by
  have hrun : getServiceState s cli w =
      displayResult .CRITICAL ("Could not find service " ++ s ++ "!\n")
        (w.afterRequest (.serviceList s)) := by
    simp [getServiceState, cliServiceList, bind, Proc.bind, sendRequest, pure, Proc.pure,
      hlist, resultList, World.afterRequest, displayResult_eq]
  refine ⟨hrun, ?_⟩
  rw [hrun, displayResult_eq, displayResult_text]
  simp [World.afterRequest, rc.String, rc.toInt]

theorem getServiceState_not_found_witness :
    getServiceState "web" (serviceClient []) World.init =
      .exited
        { stdout := World.init.stdout ++
            ["CRITICAL: " ++ sprintf0 ("Could not find service " ++ "web" ++ "!\n")],
          requests := World.init.requests ++ [.serviceList "web"] } 2 :=
  (getServiceState_not_found "web" (serviceClient []) World.init rfl).2

/-- C10. Service check, absent status: for every service name `s` and every returned list
in which at least one entry has no status (so the list is not empty), `getServiceState`
calls `displayResult` with `CRITICAL` and the message
`"Could not receive ServiceStatus for s, maybe API does not support it!\n"`, wherever that
entry stands, whatever its name and whatever the other entries hold; the line written
starts with `CRITICAL: ` and the exit code is 2. -/
theorem getServiceState_status_absent (s : String) (cli : Client) (services : List Service)
    (w : World)
    (hlist : cli.ServiceList s = .ok services)
    (habsent : ∃ v ∈ services, v.ServiceStatus = none) :
    getServiceState s cli w =
        displayResult .CRITICAL
          ("Could not receive ServiceStatus for " ++ s
            ++ ", maybe API does not support it!\n")
          (w.afterRequest (.serviceList s))
      ∧ getServiceState s cli w =
        .exited
          { stdout := w.stdout ++
              ["CRITICAL: " ++ sprintf0 ("Could not receive ServiceStatus for " ++ s
                ++ ", maybe API does not support it!\n")],
            requests := w.requests ++ [.serviceList s] } 2 := by
  have hne : ¬ services.length = 0 := by
    obtain ⟨v, hv, _⟩ := habsent
    intro h0
    rw [List.length_eq_zero] at h0
    simp [h0] at hv
  have hloop := serviceLoop_absent s services (0, 0) (w.afterRequest (.serviceList s)) habsent
  have hrun : getServiceState s cli w =
      displayResult .CRITICAL (statusAbsentMsg s) (w.afterRequest (.serviceList s)) := by
    simp only [getServiceState, cliServiceList, bind, Proc.bind, sendRequest, pure,
      Proc.pure, hlist, resultList, if_neg hne]
    simp only [World.afterRequest] at hloop
    rw [hloop]
    simp [displayResult_eq, World.afterRequest, Proc.pure_bind]
  refine ⟨hrun, ?_⟩
  rw [hrun, displayResult_eq, displayResult_text]
  simp [World.afterRequest, rc.String, rc.toInt, statusAbsentMsg]

theorem getServiceState_status_absent_witness :
    (∃ v ∈ [Service.mk "web" (some (ServiceStatus.mk 3 3)), Service.mk "web-db" none],
        v.ServiceStatus = none)
      ∧ getServiceState "web"
          (serviceClient
            [Service.mk "web" (some (ServiceStatus.mk 3 3)), Service.mk "web-db" none])
          World.init =
        displayResult .CRITICAL
          ("Could not receive ServiceStatus for " ++ "web"
            ++ ", maybe API does not support it!\n")
          (World.init.afterRequest (.serviceList "web")) :=
  ⟨by decide,
    (getServiceState_status_absent "web"
      (serviceClient
        [Service.mk "web" (some (ServiceStatus.mk 3 3)), Service.mk "web-db" none])
      [Service.mk "web" (some (ServiceStatus.mk 3 3)), Service.mk "web-db" none]
      World.init rfl (by decide)).1⟩

/-- The values of `running` and `desired` the loop of `getServiceState` ends with when no
entry stops it: those of the last entry named `s`, or the initial ones. -/
def loopCounts (s : String) : List Service → Nat × Nat → Nat × Nat
  | [], acc => acc
  | v :: vs, acc =>
    match v.ServiceStatus with
    | some st =>
      loopCounts s vs (if v.Name = s then (st.RunningTasks, st.DesiredTasks) else acc)
    | none => loopCounts s vs acc

/-- When every entry has a status the loop runs to its end without writing anything. -/
theorem serviceLoop_present (s : String) (vs : List Service) (acc : Nat × Nat) (w : World)
    (h : ∀ v ∈ vs, v.ServiceStatus ≠ none) :
    serviceLoop s vs acc w = .running w (loopCounts s vs acc) := by
  induction vs generalizing acc with
  | nil => rfl
  | cons v vs ih =>
    have hv := h v (by simp)
    have hvs : ∀ x ∈ vs, x.ServiceStatus ≠ none := fun x hx => h x (by simp [hx])
    cases hst : v.ServiceStatus with
    | none => exact absurd hst hv
    | some st =>
      simp only [serviceLoop, loopCounts, hst]
      exact ih _ hvs

/-- Entries with another name leave `running` and `desired` as they are. -/
theorem loopCounts_no_match (s : String) (vs : List Service) (acc : Nat × Nat)
    (h : ∀ v ∈ vs, v.Name ≠ s) : loopCounts s vs acc = acc := by
  induction vs generalizing acc with
  | nil => rfl
  | cons v vs ih =>
    have hv := h v (by simp)
    have hvs : ∀ x ∈ vs, x.Name ≠ s := fun x hx => h x (by simp [hx])
    cases hst : v.ServiceStatus with
    | none => simp only [loopCounts, hst]; exact ih _ hvs
    | some st => simp only [loopCounts, hst, if_neg hv]; exact ih _ hvs

/-- With exactly one entry named `s`, the loop ends with the counts of that entry. -/
theorem loopCounts_unique (s : String) (vs : List Service) (acc : Nat × Nat)
    (running desired : Nat)
    (h : vs.filter (fun v => decide (v.Name = s))
      = [Service.mk s (some (ServiceStatus.mk running desired))]) :
    loopCounts s vs acc = (running, desired) := by
  induction vs generalizing acc with
  | nil => simp at h
  | cons v vs ih =>
    by_cases hv : v.Name = s
    · rw [List.filter_cons_of_pos (by simpa using hv)] at h
      simp only [List.cons.injEq] at h
      obtain ⟨hv0, hrest⟩ := h
      have hno : ∀ x ∈ vs, x.Name ≠ s := by
        intro x hx hxs
        have : x ∈ vs.filter (fun v => decide (v.Name = s)) :=
          List.mem_filter.mpr ⟨hx, by simpa using hxs⟩
        rw [hrest] at this
        simp at this
      subst hv0
      simp only [loopCounts, if_true]
      exact loopCounts_no_match s vs _ hno
    · rw [List.filter_cons_of_neg (by simpa using hv)] at h
      cases hst : v.ServiceStatus with
      | none => simp only [loopCounts, hst]; exact ih _ h
      | some st => simp only [loopCounts, hst, if_neg hv]; exact ih _ h

/-- The branches of `getServiceState` once a non-empty list has been received in which
every entry has a status. -/
theorem getServiceState_present (s : String) (cli : Client) (services : List Service)
    (w : World)
    (hlist : cli.ServiceList s = .ok services)
    (hne : services ≠ [])
    (hall : ∀ v ∈ services, v.ServiceStatus ≠ none) :
    getServiceState s cli w =
      if (loopCounts s services (0, 0)).1 = 0 ∧ (loopCounts s services (0, 0)).2 ≠ 0 then
        displayResult .CRITICAL ("No service for " ++ s ++ " is running!\n")
          (w.afterRequest (.serviceList s))
      else if (loopCounts s services (0, 0)).1 ≠ (loopCounts s services (0, 0)).2 then
        displayResult .WARNING
          (servicesMsg (loopCounts s services (0, 0)).1 (loopCounts s services (0, 0)).2 s)
          (w.afterRequest (.serviceList s))
      else
        displayResult .OK
          (servicesMsg (loopCounts s services (0, 0)).1 (loopCounts s services (0, 0)).2 s)
          (w.afterRequest (.serviceList s)) := by
  have hlen : ¬ services.length = 0 := fun h0 => hne (List.length_eq_zero.mp h0)
  have hloop := serviceLoop_present s services (0, 0) (w.afterRequest (.serviceList s)) hall
  simp only [World.afterRequest] at hloop
  simp only [getServiceState, cliServiceList, bind, Proc.bind, sendRequest, pure,
    Proc.pure, hlist, resultList, if_neg hlen, hloop, World.afterRequest]
  generalize loopCounts s services (0, 0) = rd
  by_cases hcrit : rd.1 = 0 ∧ rd.2 ≠ 0
  · simp [hcrit, displayResult_eq, displayResult_bind]
  · by_cases hwarn : rd.1 ≠ rd.2
    · simp [hcrit, hwarn, displayResult_eq, displayResult_bind, Proc.pure_bind]
    · simp [hcrit, hwarn, displayResult_eq, Proc.pure_bind]

/-- C11. Service classification: when every returned entry has a status and exactly one
entry is named `s`, with counts `running` and `desired` (whatever entries with other
names the list holds), `getServiceState` calls `displayResult` with `CRITICAL` and
`"No service for s is running!\n"` if `desired ≠ 0` and `running = 0`; otherwise with
`WARNING` and `"running/desired services of s are running.\n"` if `running ≠ desired`;
otherwise with `OK` and the same message. -/
theorem getServiceState_classification (s : String) (cli : Client)
    (services : List Service) (w : World) (running desired : Nat)
    (hlist : cli.ServiceList s = .ok services)
    (hall : ∀ v ∈ services, v.ServiceStatus ≠ none)
    (hone : services.filter (fun v => decide (v.Name = s))
      = [Service.mk s (some (ServiceStatus.mk running desired))]) :
    getServiceState s cli w =
      if desired ≠ 0 ∧ running = 0 then
        displayResult .CRITICAL ("No service for " ++ s ++ " is running!\n")
          (w.afterRequest (.serviceList s))
      else if running ≠ desired then
        displayResult .WARNING
          (toString running ++ "/" ++ toString desired ++ " services of " ++ s
            ++ " are running.\n")
          (w.afterRequest (.serviceList s))
      else
        displayResult .OK
          (toString running ++ "/" ++ toString desired ++ " services of " ++ s
            ++ " are running.\n")
          (w.afterRequest (.serviceList s)) := by
  have hne : services ≠ [] := by
    intro h0
    rw [h0] at hone
    simp at hone
  rw [getServiceState_present s cli services w hlist hne hall,
    loopCounts_unique s services (0, 0) running desired hone]
  by_cases hcrit : desired ≠ 0 ∧ running = 0
  · rw [if_pos hcrit, if_pos ⟨hcrit.2, hcrit.1⟩]
  · have hcrit1 : ¬ (running = 0 ∧ desired ≠ 0) := fun h => hcrit ⟨h.2, h.1⟩
    rw [if_neg hcrit, if_neg hcrit1]
    rfl

theorem getServiceState_classification_witness :
    (∀ v ∈ [Service.mk "web-db" (some (ServiceStatus.mk 0 2)),
              Service.mk "web" (some (ServiceStatus.mk 1 3))], v.ServiceStatus ≠ none)
      ∧ [Service.mk "web-db" (some (ServiceStatus.mk 0 2)),
          Service.mk "web" (some (ServiceStatus.mk 1 3))].filter
            (fun v => decide (v.Name = "web"))
          = [Service.mk "web" (some (ServiceStatus.mk 1 3))]
      ∧ getServiceState "web"
          (serviceClient [Service.mk "web-db" (some (ServiceStatus.mk 0 2)),
            Service.mk "web" (some (ServiceStatus.mk 1 3))]) World.init
        = displayResult .WARNING "1/3 services of web are running.\n"
            (World.init.afterRequest (.serviceList "web")) :=
  ⟨by decide, by decide,
    (getServiceState_classification "web"
      (serviceClient [Service.mk "web-db" (some (ServiceStatus.mk 0 2)),
        Service.mk "web" (some (ServiceStatus.mk 1 3))])
      [Service.mk "web-db" (some (ServiceStatus.mk 0 2)),
        Service.mk "web" (some (ServiceStatus.mk 1 3))]
      World.init 1 3 rfl (by decide) (by decide)).trans (by decide)⟩

/-- C14. Service check, no exact match: when the returned list is not empty, every entry
has a status and no entry is named `s`, `running` and `desired` stay zero and
`getServiceState` calls `displayResult` with `OK` and the message
`"0/0 services of s are running.\n"`; the line written starts with `OK: ` and the exit
code is 0. -/
theorem getServiceState_no_exact_match (s : String) (cli : Client)
    (services : List Service) (w : World)
    (hlist : cli.ServiceList s = .ok services)
    (hne : services ≠ [])
    (hall : ∀ v ∈ services, v.ServiceStatus ≠ none)
    (hno : ∀ v ∈ services, v.Name ≠ s) :
    loopCounts s services (0, 0) = (0, 0)
      ∧ getServiceState s cli w =
        displayResult .OK ("0/0 services of " ++ s ++ " are running.\n")
          (w.afterRequest (.serviceList s))
      ∧ getServiceState s cli w =
        .exited
          { stdout := w.stdout ++
              ["OK: " ++ sprintf0 ("0/0 services of " ++ s ++ " are running.\n")],
            requests := w.requests ++ [.serviceList s] } 0 := by
  have hcounts := loopCounts_no_match s services (0, 0) hno
  have hmsg : servicesMsg 0 0 s = "0/0 services of " ++ s ++ " are running.\n" := by
    have h0 : toString (0 : Nat) ++ "/" ++ toString (0 : Nat) ++ " services of "
        = "0/0 services of " := by decide
    simp only [servicesMsg, h0]
  have hrun : getServiceState s cli w =
      displayResult .OK ("0/0 services of " ++ s ++ " are running.\n")
        (w.afterRequest (.serviceList s)) := by
    rw [getServiceState_present s cli services w hlist hne hall, hcounts]
    simp [hmsg]
  refine ⟨hcounts, hrun, ?_⟩
  rw [hrun, displayResult_eq, displayResult_text]
  simp [World.afterRequest, rc.String, rc.toInt]

theorem getServiceState_no_exact_match_witness :
    [Service.mk "web-db" (some (ServiceStatus.mk 2 2))] ≠ []
      ∧ (∀ v ∈ [Service.mk "web-db" (some (ServiceStatus.mk 2 2))], v.ServiceStatus ≠ none)
      ∧ (∀ v ∈ [Service.mk "web-db" (some (ServiceStatus.mk 2 2))], v.Name ≠ "web")
      ∧ getServiceState "web"
          (serviceClient [Service.mk "web-db" (some (ServiceStatus.mk 2 2))]) World.init
        = displayResult .OK ("0/0 services of " ++ "web" ++ " are running.\n")
            (World.init.afterRequest (.serviceList "web")) :=
  ⟨by decide, by decide, by decide,
    (getServiceState_no_exact_match "web"
      (serviceClient [Service.mk "web-db" (some (ServiceStatus.mk 2 2))])
      [Service.mk "web-db" (some (ServiceStatus.mk 2 2))] World.init rfl
      (by decide) (by decide) (by decide)).2.1⟩

/-! ## Probe failure -/

/-- A client whose two queries fail with the given error text. -/
def failingClient (err : String) : Client :=
  { NodeList := .error err, ServiceList := fun _ => .error err }

/-- C12. Probe failure: when the node-list query (for the node check) or the service-list
query (for the service check) returns an error, whatever its text, the check calls
`displayResult` with `CRITICAL` and the error text followed by `"\n"`.  That is its only
write, the process exits with code 2 there, and no observation is classified. -/
theorem probe_failure_critical (cli : Client) (err s : String) (warning critical : Int)
    (w : World) :
    (cli.NodeList = .error err →
        getNodeState cli warning critical w =
            displayResult .CRITICAL (err ++ "\n") (w.afterRequest .nodeList)
          ∧ getNodeState cli warning critical w =
            .exited
              { stdout := w.stdout ++ ["CRITICAL: " ++ sprintf0 (err ++ "\n")],
                requests := w.requests ++ [.nodeList] } 2)
      ∧ (cli.ServiceList s = .error err →
        getServiceState s cli w =
            displayResult .CRITICAL (err ++ "\n") (w.afterRequest (.serviceList s))
          ∧ getServiceState s cli w =
            .exited
              { stdout := w.stdout ++ ["CRITICAL: " ++ sprintf0 (err ++ "\n")],
                requests := w.requests ++ [.serviceList s] } 2) := by
  constructor
  · intro herr
    have hrun : getNodeState cli warning critical w =
        displayResult .CRITICAL (err ++ "\n") (w.afterRequest .nodeList) := by
      simp [getNodeState, cliNodeList, bind, Proc.bind, sendRequest, pure, Proc.pure,
        herr, World.afterRequest, displayResult_eq]
    refine ⟨hrun, ?_⟩
    rw [hrun, displayResult_eq, displayResult_text]
    simp [World.afterRequest, rc.String, rc.toInt]
  · intro herr
    have hrun : getServiceState s cli w =
        displayResult .CRITICAL (err ++ "\n") (w.afterRequest (.serviceList s)) := by
      simp [getServiceState, cliServiceList, bind, Proc.bind, sendRequest, pure,
        Proc.pure, herr, World.afterRequest, displayResult_eq]
    refine ⟨hrun, ?_⟩
    rw [hrun, displayResult_eq, displayResult_text]
    simp [World.afterRequest, rc.String, rc.toInt]

theorem probe_failure_critical_witness :
    getNodeState (failingClient "context deadline exceeded") 1 1 World.init =
        .exited
          { stdout := World.init.stdout
              ++ ["CRITICAL: " ++ sprintf0 ("context deadline exceeded" ++ "\n")],
            requests := World.init.requests ++ [.nodeList] } 2
      ∧ getServiceState "web" (failingClient "context deadline exceeded") World.init =
        .exited
          { stdout := World.init.stdout
              ++ ["CRITICAL: " ++ sprintf0 ("context deadline exceeded" ++ "\n")],
            requests := World.init.requests ++ [.serviceList "web"] } 2 :=
  ⟨((probe_failure_critical (failingClient "context deadline exceeded")
      "context deadline exceeded" "web" 1 1 World.init).1 rfl).2,
    ((probe_failure_critical (failingClient "context deadline exceeded")
      "context deadline exceeded" "web" 1 1 World.init).2 rfl).2⟩

/-! ## Totality of the service check -/

/-- C18. Totality of the service check: for every service name and every answer of the
service query (an error, the empty list, any list of entries with or without status, any
counts and names, several entries named `s` included), `getServiceState` ends by exactly
one call of `displayResult`: it appends one write, the verdict line, to standard output
and exits with the code of that verdict.  The node check is different: on some inputs it
returns without writing. -/
theorem getServiceState_total (s : String) (cli : Client) (w : World) :
    (∃ r msg,
        getServiceState s cli w = displayResult r msg (w.afterRequest (.serviceList s))
          ∧ getServiceState s cli w =
            .exited
              { stdout := w.stdout ++ [r.String ++ sprintf0 msg],
                requests := w.requests ++ [.serviceList s] } r.toInt)
      ∧ ∃ nodes warning critical,
          getNodeState (nodeClient nodes) warning critical World.init
            = .running (World.init.afterRequest .nodeList) () := by
  constructor
  · have hshape : ∀ r msg,
        getServiceState s cli w = displayResult r msg (w.afterRequest (.serviceList s)) →
        getServiceState s cli w = displayResult r msg (w.afterRequest (.serviceList s))
          ∧ getServiceState s cli w =
            .exited
              { stdout := w.stdout ++ [r.String ++ sprintf0 msg],
                requests := w.requests ++ [.serviceList s] } r.toInt := by
      intro r msg h
      refine ⟨h, ?_⟩
      rw [h, displayResult_eq, displayResult_text]
      rfl
    cases hlist : cli.ServiceList s with
    | error err =>
      refine ⟨.CRITICAL, err ++ "\n", hshape _ _ ?_⟩
      simp [getServiceState, cliServiceList, bind, Proc.bind, sendRequest, pure,
        Proc.pure, hlist, World.afterRequest, displayResult_eq]
    | ok services =>
      by_cases hne : services = []
      · subst hne
        refine ⟨.CRITICAL, "Could not find service " ++ s ++ "!\n", hshape _ _ ?_⟩
        simp [getServiceState, cliServiceList, bind, Proc.bind, sendRequest, pure,
          Proc.pure, hlist, resultList, World.afterRequest, displayResult_eq]
      · by_cases hall : ∀ v ∈ services, v.ServiceStatus ≠ none
        · have hrun := getServiceState_present s cli services w hlist hne hall
          split_ifs at hrun
          · exact ⟨_, _, hshape _ _ hrun⟩
          · exact ⟨_, _, hshape _ _ hrun⟩
          · exact ⟨_, _, hshape _ _ hrun⟩
        · have habsent : ∃ v ∈ services, v.ServiceStatus = none := by
            push_neg at hall
            exact hall
          have hlen : ¬ services.length = 0 := fun h0 => hne (List.length_eq_zero.mp h0)
          have hloop := serviceLoop_absent s services (0, 0)
            (w.afterRequest (.serviceList s)) habsent
          refine ⟨.CRITICAL, statusAbsentMsg s, hshape _ _ ?_⟩
          simp only [getServiceState, cliServiceList, bind, Proc.bind, sendRequest, pure,
            Proc.pure, hlist, resultList, if_neg hlen]
          simp only [World.afterRequest] at hloop
          rw [hloop]
          simp [displayResult_eq, World.afterRequest, Proc.pure_bind]
  · exact ⟨[Node.mk "a" "down", Node.mk "b" "ready"], 2, 2, by decide⟩

/-! ## Output shape -/

/-- C13, evaluated at the failing input `-s a%b` with no such service: the message handed
to `displayResult` is `"Could not find service a%b!\n"`, and `fmt.Printf` reads its `%b`
as a verb without operand, so the text written is not the prefix followed by the message. -/
theorem displayResult_percent_reinterpreted :
    displayResult .CRITICAL ("Could not find service " ++ "a%b" ++ "!\n") World.init
        = .exited
            { stdout := ["CRITICAL: Could not find service a%!b(MISSING)!\n"],
              requests := [] } 2
      ∧ sprintf0 (rc.CRITICAL.String ++ "Could not find service a%b!\n")
        ≠ rc.CRITICAL.String ++ "Could not find service a%b!\n"
      ∧ run (exampleEnv [] []) "check_docker_swarm" ["-s", "a%b"]
        = ({ stdout := ["CRITICAL: Could not find service a%!b(MISSING)!\n"],
             requests := [.serviceList "a%b"] }, 2) := by
  decide

/-! ## Node check: thresholds -/

/-- The node check writes nothing and returns when some nodes are down but fewer than
both thresholds. -/
theorem getNodeState_gap (cli : Client) (nodes : List Node) (warning critical : Int)
    (w : World) (hlist : cli.NodeList = .ok nodes)
    (hpos : 0 < (downHostsSpec nodes).length)
    (hw : ((downHostsSpec nodes).length : Int) < warning)
    (hc : ((downHostsSpec nodes).length : Int) < critical) :
    getNodeState cli warning critical w = .running (w.afterRequest .nodeList) () := by
  have hrun := getNodeState_ok cli nodes warning critical w hlist
  rw [nodesDown_eq] at hrun
  have h0 : ¬ (downHostsSpec nodes).length = 0 := by omega
  have hnc : ¬ ((downHostsSpec nodes).length : Int) ≥ critical := by omega
  have hnw : ¬ ((downHostsSpec nodes).length : Int) ≥ warning := by omega
  rw [if_neg h0, if_neg hnc, if_neg hnw] at hrun
  exact hrun

/-- C15, evaluated at the failing input `warning = 2`, `critical = 2` with one node of two
down (`0 < |D| < warning` and `|D| < critical`): `getNodeState` returns without calling
`displayResult`; nothing is written, neither `OK` nor any other verdict. -/
theorem getNodeState_below_warning_silent :
    (downHostsSpec [Node.mk "a" "down", Node.mk "b" "ready"]).length = 1
      ∧ getNodeState (nodeClient [Node.mk "a" "down", Node.mk "b" "ready"]) 2 2 World.init
        = .running { stdout := [], requests := [.nodeList] } () := by
  decide

/-- C16. Critical before warning: when `critical ≤ warning`, `getNodeState` never ends
with the verdict `WARNING` (neither through `displayResult` with `WARNING` nor with its
exit code), whatever the node query answers; and when the node list is received with
`|D| ≥ warning` and `|D| ≥ 1`, it calls `displayResult` with `CRITICAL`. -/
theorem getNodeState_critical_before_warning (cli : Client) (warning critical : Int)
    (w : World) (hcw : critical ≤ warning) :
    (∀ w1, getNodeState cli warning critical w ≠ .exited w1 rc.WARNING.toInt)
      ∧ (∀ msg w1, getNodeState cli warning critical w ≠ displayResult .WARNING msg w1)
      ∧ (∀ nodes, cli.NodeList = .ok nodes →
          warning ≤ ((downHostsSpec nodes).length : Int) →
          1 ≤ (downHostsSpec nodes).length →
          getNodeState cli warning critical w =
            displayResult .CRITICAL (nodesDownMsg (downHostsSpec nodes) nodes)
              (w.afterRequest .nodeList)) := by
  have hcode : ∀ w1, getNodeState cli warning critical w ≠ .exited w1 rc.WARNING.toInt := by
    intro w1 hw1
    cases hlist : cli.NodeList with
    | error err =>
      have hrun : getNodeState cli warning critical w =
          displayResult .CRITICAL (err ++ "\n") (w.afterRequest .nodeList) := by
        simp [getNodeState, cliNodeList, bind, Proc.bind, sendRequest, pure, Proc.pure,
          hlist, World.afterRequest, displayResult_eq]
      rw [hrun] at hw1
      simp [displayResult_eq, rc.toInt] at hw1
    | ok nodes =>
      have hrun := getNodeState_ok cli nodes warning critical w hlist
      rw [hrun] at hw1
      split_ifs at hw1 with h0 hc hwarn
      · simp [displayResult_eq, rc.toInt] at hw1
      · simp [displayResult_eq, rc.toInt] at hw1
      · omega
  refine ⟨hcode, ?_, ?_⟩
  · intro msg w1 h
    exact hcode _ (h.trans (displayResult_eq _ _ _))
  · intro nodes hlist hge hpos
    have hrun := getNodeState_ok cli nodes warning critical w hlist
    rw [nodesDown_eq] at hrun
    have h0 : ¬ (downHostsSpec nodes).length = 0 := by omega
    have hc : ((downHostsSpec nodes).length : Int) ≥ critical := by omega
    rw [if_neg h0, if_pos hc] at hrun
    exact hrun

theorem getNodeState_critical_before_warning_witness :
    (1 : Int) ≤ 2
      ∧ (∀ w1, getNodeState (nodeClient [Node.mk "a" "down", Node.mk "b" "down"]) 2 1
          World.init ≠ .exited w1 rc.WARNING.toInt)
      ∧ getNodeState (nodeClient [Node.mk "a" "down", Node.mk "b" "down"]) 2 1 World.init =
          displayResult .CRITICAL
            (nodesDownMsg (downHostsSpec [Node.mk "a" "down", Node.mk "b" "down"])
              [Node.mk "a" "down", Node.mk "b" "down"])
            (World.init.afterRequest .nodeList) :=
  ⟨by decide,
    (getNodeState_critical_before_warning
      (nodeClient [Node.mk "a" "down", Node.mk "b" "down"]) 2 1 World.init (by decide)).1,
    (getNodeState_critical_before_warning
      (nodeClient [Node.mk "a" "down", Node.mk "b" "down"]) 2 1 World.init
      (by decide)).2.2 [Node.mk "a" "down", Node.mk "b" "down"] rfl (by decide) (by decide)⟩

/-- C17. Monotonicity in the number of down nodes: for fixed thresholds and two received
node lists with `d ≤ d'` down nodes, if `getNodeState` ends with the exit code of
`WARNING` or `CRITICAL` on the first list, then on the second list it calls
`displayResult` with a verdict whose exit code, hence severity in the order
`OK < WARNING < CRITICAL`, is at least that of the first. -/
theorem getNodeState_monotone (cli1 cli2 : Client) (nodes1 nodes2 : List Node)
    (warning critical : Int) (w1 w2 : World) (r1 : rc)
    (hlist1 : cli1.NodeList = .ok nodes1)
    (hlist2 : cli2.NodeList = .ok nodes2)
    (hle : (downHostsSpec nodes1).length ≤ (downHostsSpec nodes2).length)
    (hr : r1 = .WARNING ∨ r1 = .CRITICAL)
    (hemit : ∃ w, getNodeState cli1 warning critical w1 = .exited w r1.toInt) :
    ∃ r2 msg,
      getNodeState cli2 warning critical w2 =
          displayResult r2 msg (w2.afterRequest .nodeList)
        ∧ r1.toInt ≤ r2.toInt := by
  obtain ⟨w, hw⟩ := hemit
  have hrun1 := getNodeState_ok cli1 nodes1 warning critical w1 hlist1
  have hrun2 := getNodeState_ok cli2 nodes2 warning critical w2 hlist2
  rw [nodesDown_eq] at hrun1 hrun2
  rw [hrun1] at hw
  split_ifs at hw with h0 hc hwarn
  · rcases hr with rfl | rfl <;> simp [displayResult_eq, rc.toInt] at hw
  · have h0b : ¬ (downHostsSpec nodes2).length = 0 := by omega
    have hcb : ((downHostsSpec nodes2).length : Int) ≥ critical := by omega
    rw [if_neg h0b, if_pos hcb] at hrun2
    exact ⟨.CRITICAL, _, hrun2, by cases r1 <;> decide⟩
  · have hr1 : r1 = .WARNING := by
      rcases hr with rfl | rfl
      · rfl
      · simp [displayResult_eq, rc.toInt] at hw
    subst hr1
    have h0b : ¬ (downHostsSpec nodes2).length = 0 := by omega
    rw [if_neg h0b] at hrun2
    by_cases hcb : ((downHostsSpec nodes2).length : Int) ≥ critical
    · rw [if_pos hcb] at hrun2
      exact ⟨.CRITICAL, _, hrun2, by decide⟩
    · have hwb : ((downHostsSpec nodes2).length : Int) ≥ warning := by omega
      rw [if_neg hcb, if_pos hwb] at hrun2
      exact ⟨.WARNING, _, hrun2, by decide⟩

theorem getNodeState_monotone_witness :
    (downHostsSpec [Node.mk "a" "down", Node.mk "b" "ready", Node.mk "c" "ready"]).length
        ≤ (downHostsSpec [Node.mk "a" "down", Node.mk "b" "down", Node.mk "c" "ready"]).length
      ∧ (rc.WARNING = .WARNING ∨ rc.WARNING = .CRITICAL)
      ∧ ∃ r2 msg,
          getNodeState
              (nodeClient [Node.mk "a" "down", Node.mk "b" "down", Node.mk "c" "ready"])
              1 2 World.init
            = displayResult r2 msg (World.init.afterRequest .nodeList)
          ∧ rc.WARNING.toInt ≤ r2.toInt :=
  ⟨by decide, by decide,
    getNodeState_monotone
      (nodeClient [Node.mk "a" "down", Node.mk "b" "ready", Node.mk "c" "ready"])
      (nodeClient [Node.mk "a" "down", Node.mk "b" "down", Node.mk "c" "ready"])
      [Node.mk "a" "down", Node.mk "b" "ready", Node.mk "c" "ready"]
      [Node.mk "a" "down", Node.mk "b" "down", Node.mk "c" "ready"]
      1 2 World.init World.init .WARNING rfl rfl (by decide) (by decide)
      ⟨{ stdout := ["WARNING: 1/3 node(s) down: a\n"], requests := [.nodeList] },
        by decide⟩⟩

end CheckDockerSwarm
